import Mathlib

/-!
Shallow embedding of the two scripts `scripts/sts.py` and `scripts/stm-plot.py`
of the asetk repository.

Real-valued quantities (energies, broadening widths, grid data) are modelled as
rationals, NumPy arrays as lists or as index functions, and fallible Python
statements as `Except` values.  Each definition cites the source lines it
embeds.
-/

/-- A Python `NameError`: reading a variable that has never been assigned. -/
inductive PyError where
  | nameError (x : String)
deriving DecidableEq

namespace Sts

/-- An energy level of the parsed spectrum: `sts.py` lines 117-119 read
`l.energy` and `l.occupation` from each level of a spin channel. -/
structure Level where
  energy : ℚ
  occupation : ℚ
deriving DecidableEq

/-- Header data of a wavefunction cube file: `sts.py` compares `cube.wfn`
and `cube.spin` (line 127) and uses `cube.filename` (line 142). -/
structure CubeHdr where
  wfn : ℕ
  spin : ℕ
  filename : String
deriving DecidableEq

/-- The energy-window test of `sts.py` lines 121-122:
`e >= args.emin - args.sigma*args.nsigmacut and
 e <= args.emax + args.sigma*args.nsigmacut`. -/
def inWindow (emin emax sigma : ℚ) (nsigmacut : ℕ) (e : ℚ) : Prop :=
  emin - sigma * nsigmacut ≤ e ∧ e ≤ emax + sigma * nsigmacut

instance inWindowDec (emin emax sigma : ℚ) (n : ℕ) (e : ℚ) :
    Decidable (inWindow emin emax sigma n e) :=
  inferInstanceAs (Decidable (_ ∧ _))

/-- The cube lookup of `sts.py` lines 124-135: scan the cube headers in input
order and take the first one with `cube.wfn == index and cube.spin == spin + 1`;
the `break` at line 135 stops at the first hit. -/
def findCube (cubes : List CubeHdr) (index spin : ℕ) : Option CubeHdr :=
  cubes.find? (fun c => c.wfn == index && c.spin == spin + 1)

/-- One spin channel of the matching loop, `sts.py` lines 117-135: enumerate the
levels of the channel (`index` is the zero-based enumeration counter starting at
`base`), keep the in-window levels that have a matching cube; the matched cube
is recorded together with the level's energy (line 128 sets `cube.energy = e`). -/
def requiredChannel (emin emax sigma : ℚ) (nsigmacut : ℕ) (cubes : List CubeHdr)
    (spin : ℕ) : List Level → ℕ → List (ℕ × ℕ × ℚ × CubeHdr)
  | [], _ => []
  | l :: rest, base =>
    (if inWindow emin emax sigma nsigmacut l.energy then
      match findCube cubes base spin with
      | some c => [(spin, base, l.energy, c)]
      | none => []
    else []) ++ requiredChannel emin emax sigma nsigmacut cubes spin rest (base + 1)

/-- The outer loop of `sts.py` line 116 over the spin channels (`spin` is the
position in `spectrum.spins`, starting at `base`). -/
def requiredCubesAux (emin emax sigma : ℚ) (nsigmacut : ℕ) (cubes : List CubeHdr) :
    List (List Level) → ℕ → List (ℕ × ℕ × ℚ × CubeHdr)
  | [], _ => []
  | ch :: chs, base =>
    requiredChannel emin emax sigma nsigmacut cubes base ch 0 ++
      requiredCubesAux emin emax sigma nsigmacut cubes chs (base + 1)

/-- `required_cubes` of `sts.py` lines 115-135: the selected
(spin, level index, level energy, cube header) records. -/
def requiredCubes (emin emax sigma : ℚ) (nsigmacut : ℕ)
    (channels : List (List Level)) (cubes : List CubeHdr) :
    List (ℕ × ℕ × ℚ × CubeHdr) :=
  requiredCubesAux emin emax sigma nsigmacut cubes channels 0

/-- One spin channel of the `not found` reports, `sts.py` lines 136-138: an
in-window level with no matching cube is reported (the script prints spin+1,
the energy and the occupation); the run is not aborted. -/
def missingChannel (emin emax sigma : ℚ) (nsigmacut : ℕ) (cubes : List CubeHdr)
    (spin : ℕ) : List Level → ℕ → List (ℕ × ℕ × ℚ × ℚ)
  | [], _ => []
  | l :: rest, base =>
    (if inWindow emin emax sigma nsigmacut l.energy ∧ findCube cubes base spin = none
     then [(spin, base, l.energy, l.occupation)]
     else []) ++ missingChannel emin emax sigma nsigmacut cubes spin rest (base + 1)

/-- The outer loop of the missing-cube reports over the spin channels. -/
def missingLevelsAux (emin emax sigma : ℚ) (nsigmacut : ℕ) (cubes : List CubeHdr) :
    List (List Level) → ℕ → List (ℕ × ℕ × ℚ × ℚ)
  | [], _ => []
  | ch :: chs, base =>
    missingChannel emin emax sigma nsigmacut cubes base ch 0 ++
      missingLevelsAux emin emax sigma nsigmacut cubes chs (base + 1)

/-- All "Missing cube file for spin ..., energy ..., occupation ..." reports of
`sts.py` lines 136-138, as (spin, level index, energy, occupation) records. -/
def missingLevels (emin emax sigma : ℚ) (nsigmacut : ℕ)
    (channels : List (List Level)) (cubes : List CubeHdr) :
    List (ℕ × ℕ × ℚ × ℚ) :=
  missingLevelsAux emin emax sigma nsigmacut cubes channels 0

/-- The whole matching step, `sts.py` lines 115-138: it consists only of
comparisons, list appends and print statements, so it always terminates
normally with the selected records and the missing-level reports. -/
def matchingStep (emin emax sigma : ℚ) (nsigmacut : ℕ)
    (channels : List (List Level)) (cubes : List CubeHdr) :
    Except PyError (List (ℕ × ℕ × ℚ × CubeHdr) × List (ℕ × ℕ × ℚ × ℚ)) :=
  .ok (requiredCubes emin emax sigma nsigmacut channels cubes,
       missingLevels emin emax sigma nsigmacut channels cubes)

/-- The volumes whose full data the spectral path loads: `sts.py` line 142 loads
`required_cubes[0]` again, and the loop of lines 159-171 loads exactly the
required cubes whose plane file is not already cached on disk. -/
def loadedVolumes (required : List CubeHdr) (cached : CubeHdr → Bool) :
    List CubeHdr :=
  match required with
  | [] => []
  | c0 :: _ => c0 :: required.filter (fun c => !(cached c))

/-- Python `int()` truncates toward zero. -/
def pyInt (q : ℚ) : ℤ :=
  if 0 ≤ q then ⌊q⌋ else ⌈q⌉

/-- `sts.py` line 149: `shape[2] = int( (args.emax - args.emin) / args.de) + 1`,
the number of energy bins of the output volume. -/
def stsNbins (emin emax de : ℚ) : ℤ :=
  pyInt ((emax - emin) / de) + 1

/-- `sts.py` line 151: `stscube.origin[2] = args.emin`. -/
def stsOrigin2 (emin : ℚ) : ℚ :=
  emin

/-- `sts.py` line 153: `zrange = np.r_[stscube.origin[2], args.emax, shape[2]]`.
With three scalar arguments `np.r_` concatenates them, so `zrange` is the
three-element array `[origin[2], emax, shape[2]]`. -/
def zrange (emin emax de : ℚ) : List ℚ :=
  [stsOrigin2 emin, emax, (stsNbins emin emax de : ℚ)]

/-- Tail of `np.argmin` over `|x - t|`: `i` is the index of the next element,
`best` the index of the least value seen so far and `bestv` that value; ties
keep the earlier index, as `np.argmin` does. -/
def argminAux (t : ℚ) : List ℚ → ℕ → ℕ → ℚ → ℕ
  | [], _, best, _ => best
  | x :: rest, i, best, bestv =>
    if |x - t| < bestv then argminAux t rest (i + 1) i |x - t|
    else argminAux t rest (i + 1) best bestv

/-- `(np.abs(zrange - e)).argmin()` of `sts.py` lines 182-183: the index of the
entry of `xs` nearest to `t` (first such index on ties; 0 for an empty list). -/
def argminAbs (xs : List ℚ) (t : ℚ) : ℕ :=
  match xs with
  | [] => 0
  | x :: rest => argminAux t rest 1 0 |x - t|

/-- `sts.py` lines 180-183: the window
`[energy - sigma*nsigmacut, energy + sigma*nsigmacut]` is mapped to the index
pair `(imin, imax)` by nearest lookup in `zrange`. -/
def windowIndices (zr : List ℚ) (energy sigma : ℚ) (nsigmacut : ℕ) : ℕ × ℕ :=
  (argminAbs zr (energy - sigma * nsigmacut),
   argminAbs zr (energy + sigma * nsigmacut))

/-- The energy-axis indices written by the accumulation loop of `sts.py`
lines 185-186: `for i in range(imin, imax+1)`. -/
def touchedIndices (p : ℕ × ℕ) : List ℕ :=
  (List.range (p.2 + 1 - p.1)).map (fun k => p.1 + k)

/-- One matched contribution of the spectral loop: the extracted 2-D plane, the
level energy stored on the cube, and the index window `[imin, imax]` computed at
`sts.py` lines 180-183. -/
structure Contrib where
  plane : ℕ → ℕ → ℚ
  energy : ℚ
  imin : ℕ
  imax : ℕ

/-- The amount `plane * gaussian(tmp.energy - zrange[i])` that `sts.py` line 186
adds at lateral point `(x, y)` and energy index `i`; indices outside
`range(imin, imax+1)` are not written, i.e. receive zero. -/
def contribAmount (g : ℚ → ℚ) (axis : ℕ → ℚ) (c : Contrib) (x y i : ℕ) : ℚ :=
  if c.imin ≤ i ∧ i ≤ c.imax then c.plane x y * g (c.energy - axis i) else 0

/-- `sts.py` lines 185-186: `stscube.data[:,:,i] += plane * gaussian(...)` for
`i in range(imin, imax+1)` — addition into the existing data, slice by slice. -/
def accumContrib (g : ℚ → ℚ) (axis : ℕ → ℚ) (c : Contrib)
    (data : ℕ → ℕ → ℕ → ℚ) : ℕ → ℕ → ℕ → ℚ :=
  fun x y i => data x y i + contribAmount g axis c x y i

/-- The spectral loop of `sts.py` lines 159-188, folded over the list of
matched contributions in order. -/
def accumulate (g : ℚ → ℚ) (axis : ℕ → ℚ) (cs : List Contrib)
    (data : ℕ → ℕ → ℕ → ℚ) : ℕ → ℕ → ℕ → ℚ :=
  cs.foldl (fun d c => accumContrib g axis c d) data

/-- A required cube as seen by the spectral loop of `sts.py` lines 159-188: its
level energy and whether its plane file already exists on disk
(`os.path.isfile(planefile)`, line 165). -/
structure RCube where
  energy : ℚ
  cacheHit : Bool
deriving DecidableEq

/-- The Python variable `tmp` after one loop iteration: `sts.py` lines 168-171
assign `tmp` only in the cache-miss branch; a cache hit (lines 165-166) leaves
it untouched. -/
def tmpAfter (tmp : Option RCube) (c : RCube) : Option RCube :=
  if c.cacheHit then tmp else some c

/-- One iteration of the spectral loop, `sts.py` lines 164-186: after the cache
branch, line 180 reads `tmp.energy` — a `NameError` if `tmp` has never been
assigned, otherwise the energy of the cube `tmp` currently holds. -/
def loopIter (tmp : Option RCube) (c : RCube) : Option RCube × Except PyError ℚ :=
  let tmp2 := tmpAfter tmp c
  (tmp2,
   match tmp2 with
   | none => .error (.nameError "tmp")
   | some t => .ok t.energy)

/-- The spectral loop over the required cubes, threading `tmp` and aborting at
the first uncaught error, as the Python run would; on success it returns the
energy each iteration centered its Gaussian window on. -/
def runLoop (tmp : Option RCube) : List RCube → Except PyError (List ℚ)
  | [] => .ok []
  | c :: cs =>
    match loopIter tmp c with
    | (tmp2, .ok e) => (runLoop tmp2 cs).map (fun es => e :: es)
    | (_, .error err) => .error err

/-- The value of `tmp` after processing a list of cubes: the most recent
cache-miss cube, if any. -/
def lastMiss (tmp : Option RCube) (cs : List RCube) : Option RCube :=
  cs.foldl tmpAfter tmp

/-- The module-level names `sts.py` has bound by the time line 196 executes: the
imports of lines 2-7 and every assignment or loop target of lines 10-188. -/
def stsScriptNames : List String :=
  ["np", "argparse", "cp2k", "progressbar", "os",
   "parser", "args", "gaussian", "spectrum", "spin", "levels",
   "cubes", "bar", "fname", "required_cubes", "index", "l", "e", "o",
   "found", "cube", "stscube", "shape", "zrange", "planefile", "plane",
   "tmp", "emin", "emax", "imin", "imax", "i"]

/-- Name resolution of a Python identifier: a `NameError` when the identifier
is not bound in the module namespace. -/
def resolveName (env : List String) (x : String) : Except PyError String :=
  if x ∈ env then .ok x else .error (.nameError x)

/-- The final statement `sts.cube.write_cube_file(args.outfile)` of `sts.py`
line 196: it first resolves the name `sts`; only on success would the output
file be written, yielding the list of files written by the statement. -/
def finalWrite (outfile : String) : Except PyError (List String) := do
  let _ ← resolveName stsScriptNames "sts"
  pure [outfile]

end Sts

namespace StmPlot

/-- The job list of `stm-plot.py` lines 107-111: one `(value, kind)` entry per
requested height (kind `'h'`) and per requested isovalue (kind `'i'`). -/
def jobs (heights isovalues : List ℚ) : List (ℚ × Char) :=
  heights.map (fun h => (h, 'h')) ++ isovalues.map (fun v => (v, 'i'))

/-- The replicate check of `stm-plot.py` lines 116-121: a one-element spec is
coerced (line 118), a two-element spec is accepted, and any other length only
prints a complaint — nothing stops the run. -/
def replicateMessages (replicate : Option (List ℤ)) : List String :=
  match replicate with
  | none => []
  | some r =>
    if r.length = 1 then []
    else if r.length = 2 then []
    else ["Invalid specification of replicas. Please specify --replicate <nx> <ny>."]

/-- The driver of `stm-plot.py` lines 104-126 up to file opening: with no jobs
the run exits before touching any file (lines 112-114); otherwise, after the
replicate check, the loop of line 124 opens every supplied cube file with full
data (`cube.Cube.from_file(fname, read_data=True)`, line 126), whatever the
replicate check printed.  Returns the printed messages and the cube files
opened. -/
def runPlot (heights isovalues : List ℚ) (replicate : Option (List ℤ))
    (stmcubes : List String) : List String × List String :=
  if jobs heights isovalues = [] then
    (["No isovalues/heights specified. Exiting..."], [])
  else
    (replicateMessages replicate, stmcubes)

/-- The cube geometry used by `resample` (`stm-plot.py` lines 19-20): the data
shape `nx, ny, nz` and the 3×3 cell matrix, row by row. -/
structure PlotCube where
  nx : ℕ
  ny : ℕ
  nz : ℕ
  cellRow0 : ℚ × ℚ × ℚ
  cellRow1 : ℚ × ℚ × ℚ
  cellRow2 : ℚ × ℚ × ℚ

/-- `dx, dy, dz = cube.atoms.cell / cube.data.shape` (`stm-plot.py` line 20):
NumPy broadcasting divides each row of the cell componentwise by
`(nx, ny, nz)`. -/
def rowDiv (r : ℚ × ℚ × ℚ) (c : PlotCube) : ℚ × ℚ × ℚ :=
  (r.1 / c.nx, r.2.1 / c.ny, r.2.2 / c.nz)

/-- The first row spacing vector `dx` of `stm-plot.py` line 20. -/
def dx (c : PlotCube) : ℚ × ℚ × ℚ :=
  rowDiv c.cellRow0 c

/-- The second row spacing vector `dy` of `stm-plot.py` line 20. -/
def dy (c : PlotCube) : ℚ × ℚ × ℚ :=
  rowDiv c.cellRow1 c

/-- Componentwise sum of two 3-vectors. -/
def vadd (a b : ℚ × ℚ × ℚ) : ℚ × ℚ × ℚ :=
  (a.1 + b.1, a.2.1 + b.2.1, a.2.2 + b.2.2)

/-- A natural multiple of a 3-vector. -/
def vsmul (k : ℕ) (a : ℚ × ℚ × ℚ) : ℚ × ℚ × ℚ :=
  (k * a.1, k * a.2.1, k * a.2.2)

/-- `pos = [ i*dx+j*dy for i in range(nx) for j in range(ny) ]`
(`stm-plot.py` line 28). -/
def posList (nx ny : ℕ) (dx0 dy0 : ℚ × ℚ × ℚ) : List (ℚ × ℚ × ℚ) :=
  (List.range nx).flatMap
    (fun i => (List.range ny).map (fun j => vadd (vsmul i dx0) (vsmul j dy0)))

/-- `np.tile(plane, (r0, r1))` for a 2-D array: the row block repeated `r0`
times along the first axis, each row repeated `r1` times along the second
(`stm-plot.py` line 23 passes `rep` as the repetition counts). -/
def tile (p : List (List ℚ)) (r0 r1 : ℕ) : List (List ℚ) :=
  (List.replicate r0 (p.map (fun row => (List.replicate r1 row).flatten))).flatten

/-- The lateral point count along x used by `resample`: `nx *= rep[0]`
(`stm-plot.py` lines 19 and 24). -/
def effNx (c : PlotCube) (rep : Option (ℕ × ℕ)) : ℕ :=
  match rep with
  | none => c.nx
  | some r => c.nx * r.1

/-- The lateral point count along y used by `resample`: `ny *= rep[1]`
(`stm-plot.py` lines 19 and 25). -/
def effNy (c : PlotCube) (rep : Option (ℕ × ℕ)) : ℕ :=
  match rep with
  | none => c.ny
  | some r => c.ny * r.2

/-- The scattered Cartesian sample points of `stm-plot.py` line 28. -/
def scatterPos (c : PlotCube) (rep : Option (ℕ × ℕ)) : List (ℚ × ℚ × ℚ) :=
  posList (effNx c rep) (effNy c rep) (dx c) (dy c)

/-- The x coordinates of the scattered points, `x` of `stm-plot.py` line 29. -/
def scatterXs (c : PlotCube) (rep : Option (ℕ × ℕ)) : List ℚ :=
  (scatterPos c rep).map (fun p => p.1)

/-- The y coordinates of the scattered points, `y` of `stm-plot.py` line 29. -/
def scatterYs (c : PlotCube) (rep : Option (ℕ × ℕ)) : List ℚ :=
  (scatterPos c rep).map (fun p => p.2.1)

/-- Smallest entry of a list of rationals (`np.min`; 0 on the empty list, where
`np.min` would raise). -/
def listMin : List ℚ → ℚ
  | [] => 0
  | x :: xs => xs.foldl min x

/-- Largest entry of a list of rationals (`np.max`; 0 on the empty list). -/
def listMax : List ℚ → ℚ
  | [] => 0
  | x :: xs => xs.foldl max x

/-- `np.linspace(a, b, n)`: `n` evenly spaced samples from `a` to `b`,
endpoints included. -/
def linspace (a b : ℚ) (n : ℕ) : List ℚ :=
  (List.range n).map (fun i : ℕ => a + (b - a) * (i : ℚ) / ((n : ℚ) - 1))

/-- The tiling branch of `stm-plot.py` lines 22-23: with a replication factor
the plane handed in is tiled once more by `np.tile(plane, rep)`. -/
def repTiled (plane : List (List ℚ)) (rep : Option (ℕ × ℕ)) : List (List ℚ) :=
  match rep with
  | none => plane
  | some r => tile plane r.1 r.2

/-- `xnew = np.linspace(extent[0], extent[1], nsamples)` of `stm-plot.py`
line 32: the uniform target mesh along x. -/
def meshX (c : PlotCube) (rep : Option (ℕ × ℕ)) (nsamples : ℕ) : List ℚ :=
  linspace (listMin (scatterXs c rep)) (listMax (scatterXs c rep)) nsamples

/-- `ynew = np.linspace(extent[2], extent[3], nsamples)` of `stm-plot.py`
line 33: the uniform target mesh along y. -/
def meshY (c : PlotCube) (rep : Option (ℕ × ℕ)) (nsamples : ℕ) : List ℚ :=
  linspace (listMin (scatterYs c rep)) (listMax (scatterYs c rep)) nsamples

/-- `resample` of `stm-plot.py` lines 13-42, with the external
`matplotlib.mlab.griddata` passed in as a parameter `griddata x y values xnew
ynew`: the optional extra tiling by `rep` (lines 22-25), the flattening
(line 27), the Cartesian positions (line 28), the bounding extent (line 31),
the uniform target mesh (lines 32-33), the interpolation call (line 38) and the
row flip `resampled[::-1,:]` (line 40). -/
def resample
    (griddata : List ℚ → List ℚ → List ℚ → List ℚ → List ℚ → List (List ℚ))
    (plane : List (List ℚ)) (c : PlotCube) (rep : Option (ℕ × ℕ))
    (nsamples : ℕ) : List (List ℚ) × (ℚ × ℚ × ℚ × ℚ) :=
  ((griddata (scatterXs c rep) (scatterYs c rep) ((repTiled plane rep).flatten)
      (meshX c rep nsamples) (meshY c rep nsamples)).reverse,
   (listMin (scatterXs c rep), listMax (scatterXs c rep),
    listMin (scatterYs c rep), listMax (scatterYs c rep)))

/-- Modelled from the spec: `Cube.get_plane_above_atoms` with a `replica`
argument is code of this repository that is not under `src/` (it lives in the
`asetk.format.cube` collaborator); spec §4.1 says the computed plane is tiled
`(nx_rep, ny_rep)` times along the two lateral axes before being returned.
`base` is the un-replicated extracted plane of shape `(nx, ny)`. -/
def planeAboveAtomsReplica (base : List (List ℚ)) (rep : ℕ × ℕ) :
    List (List ℚ) :=
  tile base rep.1 rep.2

/-- The lengths of the value and coordinate arguments of the `griddata` call in
the plotting path when a replication factor is given: the plane handed to
`resample` (`stm-plot.py` line 183) is the already replicated output of the
extraction call of lines 140-141, `resample` tiles it again at line 23 and
flattens it at line 27 into the value argument, while the coordinate list of
line 28 has `(nx*rep[0]) * (ny*rep[1])` entries. -/
def griddataArgLens (c : PlotCube) (base : List (List ℚ)) (rep : ℕ × ℕ) :
    ℕ × ℕ :=
  (((tile (planeAboveAtomsReplica base rep) rep.1 rep.2).flatten).length,
   (scatterPos c (some rep)).length)

/-- A trivial stand-in interpolator used to exercise the `resample` contract on
concrete inputs: it returns the zero value at every target mesh point. -/
def griddataZero : List ℚ → List ℚ → List ℚ → List ℚ → List ℚ → List (List ℚ) :=
  fun _ _ _ xn yn => yn.map (fun _ => xn.map (fun _ => 0))

end StmPlot

namespace Sts

/-- Claim C1. The claim asserts that with `sigma = 0.075` and `nsigmacut = 5` a
level at energy `1.0` contributes exactly to the energy-axis indices whose
energies lie in `[0.625, 1.375]`.  The code violates this: at the default axis
parameters `emin = -3, emax = 3, de = 0.01`, `zrange` is the three-element
array `[-3, 3, 601]` (the `np.r_` call of line 153 concatenates its scalar
arguments instead of building the discretised axis), the nearest-index window
degenerates to `(imin, imax) = (1, 1)`, the loop writes only index 1, no entry
of `zrange` lies in the window `[0.625, 1.375]` (so the one touched index
carries energy 3, far outside the window), and index 400 — whose intended
energy `emin + 400·de = 1.0` lies inside the window — is never touched. -/
theorem sts_window_zrange_bug :
    zrange (-3) 3 (1/100) = [-3, 3, 601] ∧
    windowIndices (zrange (-3) 3 (1/100)) 1 (3/40) 5 = (1, 1) ∧
    touchedIndices (windowIndices (zrange (-3) 3 (1/100)) 1 (3/40) 5) = [1] ∧
    (∀ z ∈ zrange (-3) 3 (1/100),
      ¬(1 - (3/40) * 5 ≤ z ∧ z ≤ 1 + (3/40) * 5)) ∧
    ((-3 : ℚ) + 400 * (1/100) = 1 ∧ 1 - (3/40) * 5 ≤ (1:ℚ) ∧
      (1:ℚ) ≤ 1 + (3/40) * 5) ∧
    400 ∉ touchedIndices (windowIndices (zrange (-3) 3 (1/100)) 1 (3/40) 5) := by
  refine ⟨?_, ?_, ?_, ?_, ?_, ?_⟩
  · norm_num [zrange, stsNbins, pyInt, stsOrigin2]
  · norm_num [zrange, stsNbins, pyInt, stsOrigin2, windowIndices, argminAbs,
      argminAux, abs]
  · rw [show windowIndices (zrange (-3) 3 (1/100)) 1 (3/40) 5 = (1, 1) by
      norm_num [zrange, stsNbins, pyInt, stsOrigin2, windowIndices, argminAbs,
        argminAux, abs]]
    decide
  · intro z hz
    rw [show zrange (-3) 3 (1/100) = [-3, 3, 601] by
      norm_num [zrange, stsNbins, pyInt, stsOrigin2]] at hz
    fin_cases hz <;> norm_num
  · norm_num
  · rw [show windowIndices (zrange (-3) 3 (1/100)) 1 (3/40) 5 = (1, 1) by
      norm_num [zrange, stsNbins, pyInt, stsOrigin2, windowIndices, argminAbs,
        argminAux, abs]]
    decide

/-- Claim C2. The claim asserts that after initialisation the output volume's
third axis has `nbins = floor((emax-emin)/de) + 1` bins with `origin[2] = emin`
(both true at `emin = -3, emax = 3, de = 0.01`: 601 bins, origin −3) and that
the energy associated with bin `i` of the discretised energy axis is
`emin + i·de` for every `i < nbins`.  The code violates the last part: the
discretised axis `zrange` (line 153) has only 3 entries, its bin 1 carries the
energy 3 rather than `-3 + 1·0.01 = -2.99`, and bins `i ≥ 3` (such as 400)
have no axis energy at all. -/
theorem sts_energy_axis_init_bug :
    stsNbins (-3) 3 (1/100) = 601 ∧
    stsOrigin2 (-3) = -3 ∧
    (zrange (-3) 3 (1/100)).length = 3 ∧
    (zrange (-3) 3 (1/100)).get? 1 = some 3 ∧
    ((3 : ℚ) ≠ -3 + 1 * (1/100)) ∧
    (zrange (-3) 3 (1/100)).get? 400 = none := by
  have hz : zrange (-3) 3 (1/100) = [-3, 3, 601] := by
    norm_num [zrange, stsNbins, pyInt, stsOrigin2]
  refine ⟨?_, rfl, ?_, ?_, by norm_num, ?_⟩
  · norm_num [stsNbins, pyInt]
  · rw [hz]
    rfl
  · rw [hz]
    rfl
  · rw [hz]
    rfl

/-- Claim C7. The final statement of `sts.py` (line 196) references the name
`sts`, which the script never binds, so every run reaching it raises a
`NameError` and the statement writes no output file. -/
theorem sts_final_write_name_error (outfile : String) :
    finalWrite outfile = .error (.nameError "sts") :=
  rfl

/-- Counterexample to claim C3 as stated: with one in-window level
(spin channel 0, index 0, energy 0) and two cube headers that both satisfy the
matching rule (`wfn = 0`, `spin = 1`), only the first header is selected — the
loop of `sts.py` lines 125-135 breaks at the first match — so the second
(level, header) pair satisfies the claimed conditions yet is not selected. -/
theorem sts_selection_iff_counterexample :
    inWindow (-3) 3 (3/40) 5 (0:ℚ) ∧
    (CubeHdr.mk 0 1 "b").wfn = 0 ∧ (CubeHdr.mk 0 1 "b").spin = 0 + 1 ∧
    requiredCubes (-3) 3 (3/40) 5 [[⟨0, 0⟩]] [⟨0, 1, "a"⟩, ⟨0, 1, "b"⟩] =
      [(0, 0, 0, ⟨0, 1, "a"⟩)] ∧
    (0, 0, (0:ℚ), (⟨0, 1, "b"⟩ : CubeHdr)) ∉
      requiredCubes (-3) 3 (3/40) 5 [[⟨0, 0⟩]] [⟨0, 1, "a"⟩, ⟨0, 1, "b"⟩] := by
  refine ⟨by norm_num [inWindow], rfl, rfl, ?_, ?_⟩
  · norm_num [requiredCubes, requiredCubesAux, requiredChannel, inWindow,
      findCube, List.find?]
  · norm_num [requiredCubes, requiredCubesAux, requiredChannel, inWindow,
      findCube, List.find?]
    decide

end Sts

namespace StmPlot

/-- Claim C8. The claim asserts that a malformed replication spec is rejected
before any file I/O, so that no cube file is opened.  The code violates this:
with `--heights 3 --replicate 1 2 3 --stmcubes a.cube` the check of
`stm-plot.py` lines 116-121 only prints the complaint and the run then opens
`a.cube` with full data at line 126. -/
theorem stmplot_replicate_not_rejected :
    runPlot [3] [] (some [1, 2, 3]) ["a.cube"] =
      (["Invalid specification of replicas. Please specify --replicate <nx> <ny>."],
       ["a.cube"]) ∧
    (runPlot [3] [] (some [1, 2, 3]) ["a.cube"]).2 ≠ [] := by
  exact ⟨rfl, by decide⟩

end StmPlot

namespace Sts

/-- Pointwise value of the accumulation fold: the initial data plus the sum of
the individual contribution amounts. -/
theorem accumulate_pointwise (g : ℚ → ℚ) (axis : ℕ → ℚ) (cs : List Contrib)
    (data : ℕ → ℕ → ℕ → ℚ) (x y i : ℕ) :
    accumulate g axis cs data x y i =
      data x y i + (cs.map (fun c => contribAmount g axis c x y i)).sum := by
  induction cs generalizing data with
  | nil => simp [accumulate]
  | cons c rest ih =>
    have hstep : accumulate g axis (c :: rest) data =
        accumulate g axis rest (accumContrib g axis c data) := rfl
    rw [hstep, ih]
    simp [accumContrib]
    ring

/-- Claim C5. The accumulation of `sts.py` lines 185-186 is purely additive:
each contribution only adds `plane * g(energy - axis[i])` into the slice at
index `i` of its window and never overwrites, and consequently the final
volume after folding a list of contributions is invariant, pointwise, under
any permutation of that list. -/
theorem sts_accumulation_order_independent (g : ℚ → ℚ) (axis : ℕ → ℚ)
    (cs cs' : List Contrib) (data : ℕ → ℕ → ℕ → ℚ) (h : cs.Perm cs') :
    (∀ (c : Contrib) (d : ℕ → ℕ → ℕ → ℚ) (x y i : ℕ),
      accumContrib g axis c d x y i = d x y i + contribAmount g axis c x y i) ∧
    (∀ (x y i : ℕ),
      accumulate g axis cs data x y i = accumulate g axis cs' data x y i) := by
  refine ⟨fun c d x y i => rfl, fun x y i => ?_⟩
  rw [accumulate_pointwise, accumulate_pointwise,
    List.Perm.sum_eq (h.map (fun c => contribAmount g axis c x y i))]

/-- Witness for claim C5: two concrete contributions accumulated in both
orders. -/
theorem sts_accumulation_order_independent_witness :
    (([⟨fun _ _ => 1, 0, 0, 0⟩, ⟨fun _ _ => 2, 1, 0, 1⟩] : List Contrib).Perm
      [⟨fun _ _ => 2, 1, 0, 1⟩, ⟨fun _ _ => 1, 0, 0, 0⟩]) ∧
    (∀ (x y i : ℕ),
      accumulate (fun q => q) (fun k => k)
        [⟨fun _ _ => 1, 0, 0, 0⟩, ⟨fun _ _ => 2, 1, 0, 1⟩] (fun _ _ _ => 0) x y i =
      accumulate (fun q => q) (fun k => k)
        [⟨fun _ _ => 2, 1, 0, 1⟩, ⟨fun _ _ => 1, 0, 0, 0⟩] (fun _ _ _ => 0) x y i) := by
  have hp : (([⟨fun _ _ => 1, 0, 0, 0⟩, ⟨fun _ _ => 2, 1, 0, 1⟩] : List Contrib).Perm
      [⟨fun _ _ => 2, 1, 0, 1⟩, ⟨fun _ _ => 1, 0, 0, 0⟩]) :=
    List.Perm.swap _ _ _
  exact ⟨hp, (sts_accumulation_order_independent (fun q => q) (fun k => k) _ _
    (fun _ _ _ => 0) hp).2⟩

/-- One unfolding step of the spectral loop. -/
theorem runLoop_cons (tmp : Option RCube) (c : RCube) (cs : List RCube) :
    runLoop tmp (c :: cs) =
      match tmpAfter tmp c with
      | none => .error (.nameError "tmp")
      | some t => (runLoop (some t) cs).map (fun es => t.energy :: es) := by
  cases htmp : tmpAfter tmp c with
  | none => rw [runLoop, loopIter, htmp]
  | some t => rw [runLoop, loopIter, htmp]

/-- In a successful run, the energy used by a cache-hit iteration `k` is the
energy held by `tmp` at that point: the most recent cache-miss cube, or the
initial `tmp` when no miss happened yet. -/
theorem runLoop_hit_energy (cs : List RCube) :
    ∀ (tmp : Option RCube) (es : List ℚ) (k : ℕ) (c : RCube),
      runLoop tmp cs = .ok es → cs.get? k = some c → c.cacheHit = true →
      ∃ m, lastMiss tmp (cs.take k) = some m ∧ es.get? k = some m.energy := by
  induction cs with
  | nil =>
    intro tmp es k c hrun hk hc
    simp at hk
  | cons c0 rest ih =>
    intro tmp es k c hrun hk hc
    rw [runLoop_cons] at hrun
    cases htmp : tmpAfter tmp c0 with
    | none =>
      simp only [htmp] at hrun
      exact Except.noConfusion hrun
    | some t =>
      simp only [htmp] at hrun
      cases hrest : runLoop (some t) rest with
      | error err => rw [hrest] at hrun; simp [Except.map] at hrun
      | ok es' =>
        rw [hrest] at hrun
        simp [Except.map] at hrun
        subst hrun
        cases k with
        | zero =>
          rw [List.get?_cons_zero] at hk
          injection hk with hk
          subst hk
          have htmp' : tmp = some t := by
            rw [tmpAfter, if_pos hc] at htmp
            exact htmp
          exact ⟨t, by simp [lastMiss, List.take, htmp'], rfl⟩
        | succ k =>
          rw [List.get?_cons_succ] at hk
          obtain ⟨m, hm, he⟩ := ih (some t) es' k c hrest hk hc
          refine ⟨m, ?_, by rw [List.get?_cons_succ]; exact he⟩
          show lastMiss tmp (c0 :: rest.take k) = some m
          rw [lastMiss, List.foldl_cons, htmp]
          exact hm

/-- Claim C6. In the spectral loop, a cache-hit iteration reads `tmp.energy`
from the variable `tmp`, last assigned during the most recent cache-miss
iteration: if the very first processed cube hits the cache, the run fails with
an undefined-name error (`tmp` was never assigned); otherwise the energy the
Gaussian window is centered on at a cache-hit iteration `k` is the energy of
the most recent cache-miss cube before `k`, not the current cube's energy. -/
theorem sts_tmp_cache_bug :
    (∀ (c : RCube) (cs : List RCube), c.cacheHit = true →
      runLoop none (c :: cs) = .error (.nameError "tmp")) ∧
    (∀ (cs : List RCube) (es : List ℚ) (k : ℕ) (c : RCube),
      runLoop none cs = .ok es → cs.get? k = some c → c.cacheHit = true →
      ∃ m, lastMiss none (cs.take k) = some m ∧ es.get? k = some m.energy) := by
  constructor
  · intro c cs hc
    rw [runLoop_cons, tmpAfter, if_pos hc]
  · intro cs es k c hrun hk hc
    exact runLoop_hit_energy cs none es k c hrun hk hc

/-- Witness for claim C6: a first-cube cache hit aborts with the name error,
and in the run `[miss with energy 1, hit with energy 2]` the hit iteration
uses energy 1 — the earlier cube's energy — not its own energy 2. -/
theorem sts_tmp_cache_bug_witness :
    ((⟨5, true⟩ : RCube).cacheHit = true) ∧
    runLoop none [(⟨5, true⟩ : RCube)] = .error (.nameError "tmp") ∧
    (runLoop none [(⟨1, false⟩ : RCube), ⟨2, true⟩] = .ok [1, 1]) ∧
    ([(⟨1, false⟩ : RCube), ⟨2, true⟩].get? 1 = some ⟨2, true⟩) ∧
    ((⟨2, true⟩ : RCube).cacheHit = true) ∧
    (∃ m, lastMiss none ([(⟨1, false⟩ : RCube), ⟨2, true⟩].take 1) = some m ∧
      ([(1:ℚ), 1].get? 1 = some m.energy)) :=
  ⟨rfl, sts_tmp_cache_bug.1 ⟨5, true⟩ [] rfl, rfl, rfl, rfl,
   sts_tmp_cache_bug.2 [⟨1, false⟩, ⟨2, true⟩] [1, 1] 1 ⟨2, true⟩ rfl rfl rfl⟩

/-- Membership in one spin channel of the matching loop: a record is selected
exactly when it comes from a level of the channel (at enumeration offset
`base`), the level is in the energy window and the cube is the first matching
one. -/
theorem mem_requiredChannel (emin emax sigma : ℚ) (n : ℕ) (cubes : List CubeHdr)
    (spin : ℕ) (ch : List Level) :
    ∀ (base : ℕ) (s i : ℕ) (e : ℚ) (c : CubeHdr),
      ((s, i, e, c) ∈ requiredChannel emin emax sigma n cubes spin ch base ↔
        s = spin ∧ ∃ k l, ch.get? k = some l ∧ i = base + k ∧ e = l.energy ∧
          inWindow emin emax sigma n l.energy ∧ findCube cubes i spin = some c) := by
  induction ch with
  | nil =>
    intro base s i e c
    simp [requiredChannel]
  | cons l0 rest ih =>
    intro base s i e c
    rw [requiredChannel, List.mem_append]
    constructor
    · rintro (hmem | hmem)
      · by_cases hw : inWindow emin emax sigma n l0.energy
        · rw [if_pos hw] at hmem
          cases hfc : findCube cubes base spin with
          | none => rw [hfc] at hmem; simp at hmem
          | some c1 =>
            rw [hfc] at hmem
            simp only [List.mem_singleton, Prod.mk.injEq] at hmem
            obtain ⟨hs, hi, he, hc⟩ := hmem
            subst hs; subst hi; subst he; subst hc
            exact ⟨rfl, 0, l0, rfl, by omega, rfl, hw, hfc⟩
        · rw [if_neg hw] at hmem
          simp at hmem
      · obtain ⟨hs, k, l, hk, hi, he, hw, hf⟩ := (ih (base + 1) s i e c).1 hmem
        exact ⟨hs, k + 1, l, by simpa using hk, by omega, he, hw, hf⟩
    · rintro ⟨hs, k, l, hk, hi, he, hw, hf⟩
      cases k with
      | zero =>
        rw [List.get?_cons_zero] at hk
        injection hk with hk
        subst hk
        subst hs
        have hi0 : i = base := by omega
        subst hi0
        subst he
        left
        rw [if_pos hw, hf]
        simp
      | succ k =>
        right
        refine (ih (base + 1) s i e c).2 ⟨hs, k, l, ?_, by omega, he, hw, hf⟩
        simpa using hk

/-- Membership in the whole matching loop: a record comes from the channel at
the spin position it carries. -/
theorem mem_requiredCubesAux (emin emax sigma : ℚ) (n : ℕ) (cubes : List CubeHdr)
    (channels : List (List Level)) :
    ∀ (base : ℕ) (s i : ℕ) (e : ℚ) (c : CubeHdr),
      ((s, i, e, c) ∈ requiredCubesAux emin emax sigma n cubes channels base ↔
        ∃ j ch, channels.get? j = some ch ∧ s = base + j ∧
          (s, i, e, c) ∈ requiredChannel emin emax sigma n cubes s ch 0) := by
  induction channels with
  | nil =>
    intro base s i e c
    simp [requiredCubesAux]
  | cons ch0 chs ih =>
    intro base s i e c
    rw [requiredCubesAux, List.mem_append]
    constructor
    · rintro (hmem | hmem)
      · have hs : s = base :=
          ((mem_requiredChannel emin emax sigma n cubes base ch0 0 s i e c).1 hmem).1
        subst hs
        exact ⟨0, ch0, rfl, by omega, hmem⟩
      · obtain ⟨j, ch, hj, hs, hm⟩ := (ih (base + 1) s i e c).1 hmem
        exact ⟨j + 1, ch, by simpa using hj, by omega, hm⟩
    · rintro ⟨j, ch, hj, hs, hm⟩
      cases j with
      | zero =>
        rw [List.get?_cons_zero] at hj
        injection hj with hj
        subst hj
        have hs0 : s = base := by omega
        subst hs0
        left
        exact hm
      | succ j =>
        right
        refine (ih (base + 1) s i e c).2 ⟨j, ch, ?_, by omega, hm⟩
        simpa using hj

/-- Claim C3 (amended). A (level, header) pair is selected by the matching loop
iff the level's energy lies in `[emin - sigma*nsigmacut, emax +
sigma*nsigmacut]`, the header's band index equals the level's index, the
header's spin equals the level's spin-channel index plus one, and — the
amendment — the header is the first header in input order satisfying the
matching rule for that level (`findCube = some c`); and every volume whose
full data is loaded belongs to the selected set. -/
theorem sts_level_cube_selection (emin emax sigma : ℚ) (n : ℕ)
    (channels : List (List Level)) (cubes : List CubeHdr)
    (s i : ℕ) (e : ℚ) (c : CubeHdr) :
    ((s, i, e, c) ∈ requiredCubes emin emax sigma n channels cubes ↔
      ∃ ch l, channels.get? s = some ch ∧ ch.get? i = some l ∧ e = l.energy ∧
        inWindow emin emax sigma n l.energy ∧ findCube cubes i s = some c) ∧
    (∀ (required : List CubeHdr) (cached : CubeHdr → Bool) (v : CubeHdr),
      v ∈ loadedVolumes required cached → v ∈ required) := by
  constructor
  · rw [requiredCubes, mem_requiredCubesAux]
    constructor
    · rintro ⟨j, ch, hj, hs, hm⟩
      have hs' : s = j := by omega
      subst hs'
      obtain ⟨-, k, l, hk, hi, he, hw, hf⟩ :=
        (mem_requiredChannel emin emax sigma n cubes s ch 0 s i e c).1 hm
      have hik : i = k := by omega
      subst hik
      exact ⟨ch, l, hj, hk, he, hw, hf⟩
    · rintro ⟨ch, l, hch, hl, he, hw, hf⟩
      refine ⟨s, ch, hch, by omega, ?_⟩
      exact (mem_requiredChannel emin emax sigma n cubes s ch 0 s i e c).2
        ⟨rfl, i, l, hl, by omega, he, hw, hf⟩
  · intro required cached v hv
    cases required with
    | nil => simp [loadedVolumes] at hv
    | cons c0 rest =>
      simp only [loadedVolumes, List.mem_cons] at hv
      rcases hv with hv | hv
      · subst hv; exact List.mem_cons_self _ _
      · exact List.mem_of_mem_filter hv

/-- Witness for claim C3 (amended): the concrete first matching header is
selected, with each condition checked on the concrete input. -/
theorem sts_level_cube_selection_witness :
    ((0, 0, (0:ℚ), (⟨0, 1, "a"⟩ : CubeHdr)) ∈
      requiredCubes (-3) 3 (3/40) 5 [[⟨0, 0⟩]] [⟨0, 1, "a"⟩, ⟨0, 1, "b"⟩]) ∧
    (∃ ch l, ([[(⟨0, 0⟩ : Level)]]).get? 0 = some ch ∧ ch.get? 0 = some l ∧
      (0:ℚ) = l.energy ∧ inWindow (-3) 3 (3/40) 5 l.energy ∧
      findCube [⟨0, 1, "a"⟩, ⟨0, 1, "b"⟩] 0 0 = some ⟨0, 1, "a"⟩) := by
  have hside : ∃ ch l, ([[(⟨0, 0⟩ : Level)]]).get? 0 = some ch ∧
      ch.get? 0 = some l ∧ (0:ℚ) = l.energy ∧ inWindow (-3) 3 (3/40) 5 l.energy ∧
      findCube [⟨0, 1, "a"⟩, ⟨0, 1, "b"⟩] 0 0 = some ⟨0, 1, "a"⟩ :=
    ⟨[⟨0, 0⟩], ⟨0, 0⟩, rfl, rfl, rfl, by norm_num [inWindow], rfl⟩
  exact ⟨(sts_level_cube_selection (-3) 3 (3/40) 5 [[⟨0, 0⟩]]
      [⟨0, 1, "a"⟩, ⟨0, 1, "b"⟩] 0 0 0 ⟨0, 1, "a"⟩).1.mpr hside, hside⟩

/-- An in-window level of a channel with no matching cube appears in the
channel's missing-cube reports. -/
theorem missingChannel_mem (emin emax sigma : ℚ) (n : ℕ) (cubes : List CubeHdr)
    (spin : ℕ) (ch : List Level) :
    ∀ (base k : ℕ) (l : Level), ch.get? k = some l →
      inWindow emin emax sigma n l.energy →
      findCube cubes (base + k) spin = none →
      (spin, base + k, l.energy, l.occupation) ∈
        missingChannel emin emax sigma n cubes spin ch base := by
  induction ch with
  | nil =>
    intro base k l hk
    simp at hk
  | cons l0 rest ih =>
    intro base k l hk hw hf
    rw [missingChannel, List.mem_append]
    cases k with
    | zero =>
      rw [List.get?_cons_zero] at hk
      injection hk with hk
      subst hk
      left
      rw [if_pos ⟨hw, by simpa using hf⟩]
      simp
    | succ k =>
      rw [List.get?_cons_succ] at hk
      right
      have := ih (base + 1) k l hk hw
        (by rw [show base + 1 + k = base + (k + 1) by omega]; exact hf)
      rw [show base + (k + 1) = base + 1 + k by omega]
      exact this

/-- An in-window level with no matching cube appears in the missing-cube
reports of the whole matching loop. -/
theorem missingLevelsAux_mem (emin emax sigma : ℚ) (n : ℕ) (cubes : List CubeHdr)
    (channels : List (List Level)) :
    ∀ (base j : ℕ) (ch : List Level) (k : ℕ) (l : Level),
      channels.get? j = some ch → ch.get? k = some l →
      inWindow emin emax sigma n l.energy →
      findCube cubes k (base + j) = none →
      (base + j, k, l.energy, l.occupation) ∈
        missingLevelsAux emin emax sigma n cubes channels base := by
  induction channels with
  | nil =>
    intro base j ch k l hj
    simp at hj
  | cons ch0 chs ih =>
    intro base j ch k l hj hk hw hf
    rw [missingLevelsAux, List.mem_append]
    cases j with
    | zero =>
      rw [List.get?_cons_zero] at hj
      injection hj with hj
      subst hj
      left
      have := missingChannel_mem emin emax sigma n cubes base ch0 0 k l hk hw
        (by simpa using hf)
      simpa using this
    | succ j =>
      rw [List.get?_cons_succ] at hj
      right
      have := ih (base + 1) j ch k l hj hk hw
        (by rw [show base + 1 + j = base + (j + 1) by omega]; exact hf)
      rw [show base + (j + 1) = base + 1 + j by omega]
      exact this

/-- Claim C4. An in-window level with no matching volume file is reported by
the matching step, is excluded from the selected set (so from the spectral
sum), and the matching step itself terminates normally — no exception — with
its two result lists. -/
theorem sts_missing_cube_reported (emin emax sigma : ℚ) (n : ℕ)
    (channels : List (List Level)) (cubes : List CubeHdr)
    (s i : ℕ) (ch : List Level) (l : Level)
    (hch : channels.get? s = some ch) (hl : ch.get? i = some l)
    (hw : inWindow emin emax sigma n l.energy)
    (hf : findCube cubes i s = none) :
    ((s, i, l.energy, l.occupation) ∈
      missingLevels emin emax sigma n channels cubes) ∧
    (∀ c : CubeHdr,
      (s, i, l.energy, c) ∉ requiredCubes emin emax sigma n channels cubes) ∧
    matchingStep emin emax sigma n channels cubes =
      .ok (requiredCubes emin emax sigma n channels cubes,
           missingLevels emin emax sigma n channels cubes) := by
  refine ⟨?_, ?_, rfl⟩
  · have := missingLevelsAux_mem emin emax sigma n cubes channels 0 s ch i l hch hl hw
      (by simpa using hf)
    simpa [missingLevels] using this
  · intro c hc
    rw [requiredCubes, mem_requiredCubesAux] at hc
    obtain ⟨j, ch', hj, hs, hm⟩ := hc
    have hs' : s = j := by omega
    subst hs'
    obtain ⟨-, k, l', hk, hi, he, hw', hf'⟩ :=
      (mem_requiredChannel emin emax sigma n cubes s ch' 0 s i l.energy c).1 hm
    rw [hf'] at hf
    exact Option.noConfusion hf

/-- Witness for claim C4: a single in-window level and no cube headers at
all — the level is reported missing and selected nowhere. -/
theorem sts_missing_cube_reported_witness :
    (([[(⟨0, 0⟩ : Level)]]).get? 0 = some [⟨0, 0⟩]) ∧
    (([(⟨0, 0⟩ : Level)]).get? 0 = some ⟨0, 0⟩) ∧
    inWindow (-3) 3 (3/40) 5 ((⟨0, 0⟩ : Level)).energy ∧
    findCube [] 0 0 = none ∧
    ((0, 0, (0:ℚ), (0:ℚ)) ∈ missingLevels (-3) 3 (3/40) 5 [[⟨0, 0⟩]] []) ∧
    (∀ c : CubeHdr,
      (0, 0, (0:ℚ), c) ∉ requiredCubes (-3) 3 (3/40) 5 [[⟨0, 0⟩]] []) := by
  have h := sts_missing_cube_reported (-3) 3 (3/40) 5 [[⟨0, 0⟩]] [] 0 0 [⟨0, 0⟩]
    ⟨0, 0⟩ rfl rfl (by norm_num [inWindow]) rfl
  exact ⟨rfl, rfl, by norm_num [inWindow], rfl, h.1, h.2.1⟩

end Sts

namespace StmPlot

/-- Counterexample to claim C10 as stated: the claim concludes that whenever a
replication factor is given, the coordinate and value arguments of the
interpolation call have unequal lengths; with the replication factor `(1, 1)`
and a 1×1 base plane both arguments have length 1, so the conclusion fails
even though the double tiling does occur. -/
theorem stmplot_double_tiling_counterexample :
    (griddataArgLens ⟨1, 1, 1, (1, 0, 0), (0, 1, 0), (0, 0, 1)⟩ [[5]] (1, 1)).1 =
      (griddataArgLens ⟨1, 1, 1, (1, 0, 0), (0, 1, 0), (0, 0, 1)⟩ [[5]] (1, 1)).2 :=
  rfl

end StmPlot

namespace StmPlot

/-- Length of the concatenation of `r` copies of a list. -/
theorem length_flatten_replicate {α : Type} (r : ℕ) (l : List α) :
    ((List.replicate r l).flatten).length = r * l.length := by
  induction r with
  | zero => simp
  | succ r ih =>
    rw [List.replicate_succ, List.flatten_cons, List.length_append, ih,
      Nat.succ_mul]
    omega

/-- Total size of the row-wise tiling step of `np.tile`. -/
theorem map_tile_rows_flatten_length (r1 : ℕ) (p : List (List ℚ)) :
    ((p.map (fun row => (List.replicate r1 row).flatten)).flatten).length =
      r1 * (p.flatten).length := by
  induction p with
  | nil => simp
  | cons row rest ih =>
    rw [List.map_cons, List.flatten_cons, List.length_append,
      length_flatten_replicate, ih, List.flatten_cons, List.length_append,
      Nat.mul_add]

/-- Total size of the block-replication step of `np.tile`. -/
theorem flatten_flatten_replicate_length (r0 : ℕ) (Q : List (List ℚ)) :
    (((List.replicate r0 Q).flatten).flatten).length =
      r0 * (Q.flatten).length := by
  induction r0 with
  | zero => simp
  | succ r0 ih =>
    rw [List.replicate_succ, List.flatten_cons, List.flatten_append,
      List.length_append, ih, Nat.succ_mul]
    omega

/-- `np.tile(p, (r0, r1))` multiplies the total entry count by `r0 * r1`. -/
theorem tile_flatten_length (p : List (List ℚ)) (r0 r1 : ℕ) :
    ((tile p r0 r1).flatten).length = r0 * (r1 * (p.flatten).length) := by
  rw [tile, flatten_flatten_replicate_length, map_tile_rows_flatten_length]

/-- The coordinate list of `stm-plot.py` line 28 has `nx * ny` entries. -/
theorem posList_length (nx ny : ℕ) (dx0 dy0 : ℚ × ℚ × ℚ) :
    (posList nx ny dx0 dy0).length = nx * ny := by
  rw [posList]
  induction nx with
  | zero => simp
  | succ nx ih =>
    rw [List.range_succ, List.flatMap_append, List.length_append, ih]
    simp [Nat.succ_mul]

/-- A plane with `nx` rows of `ny` entries flattens to `nx * ny` values. -/
theorem flatten_length_uniform (p : List (List ℚ)) (nx ny : ℕ)
    (hlen : p.length = nx) (hrow : ∀ row ∈ p, row.length = ny) :
    (p.flatten).length = nx * ny := by
  induction p generalizing nx with
  | nil =>
    simp at hlen
    simp [← hlen]
  | cons row rest ih =>
    cases nx with
    | zero => simp at hlen
    | succ nx =>
      rw [List.flatten_cons, List.length_append,
        hrow row (List.mem_cons_self _ _),
        ih nx (by simpa using hlen) (fun r hr => hrow r (List.mem_cons_of_mem _ hr)),
        Nat.succ_mul]
      omega

/-- Claim C10 (amended). When a replication factor `rep` is given, the plane
passed to `resample` was already tiled by the extraction call with the same
factor and `resample` tiles it again, so the flattened value array handed to
the interpolator has `rep[0]*rep[1]` times as many entries as the coordinate
list — and therefore, whenever `rep[0]*rep[1] > 1` and the cube has a nonempty
lateral grid, the two arguments of the interpolation call have unequal
lengths (for `rep[0]*rep[1] = 1` the double tiling is the identity and the
lengths agree). -/
theorem stmplot_double_tiling_length_mismatch (c : PlotCube)
    (base : List (List ℚ)) (rep : ℕ × ℕ)
    (hlen : base.length = c.nx) (hrow : ∀ row ∈ base, row.length = c.ny) :
    ((griddataArgLens c base rep).1 =
      rep.1 * rep.2 * (griddataArgLens c base rep).2) ∧
    (1 < rep.1 * rep.2 → 0 < c.nx → 0 < c.ny →
      (griddataArgLens c base rep).1 ≠ (griddataArgLens c base rep).2) := by
  have hbase : (base.flatten).length = c.nx * c.ny :=
    flatten_length_uniform base c.nx c.ny hlen hrow
  have hvals : (griddataArgLens c base rep).1 =
      (rep.1 * rep.2) * ((rep.1 * rep.2) * (c.nx * c.ny)) := by
    show ((tile (planeAboveAtomsReplica base rep) rep.1 rep.2).flatten).length = _
    rw [tile_flatten_length, planeAboveAtomsReplica, tile_flatten_length, hbase]
    ring
  have hpos : (griddataArgLens c base rep).2 =
      (rep.1 * rep.2) * (c.nx * c.ny) := by
    show (scatterPos c (some rep)).length = _
    rw [scatterPos, posList_length, effNx, effNy]
    ring
  constructor
  · rw [hvals, hpos]
  · intro hr hx hy
    rw [hvals, hpos]
    intro heq
    have hk : 0 < c.nx * c.ny := Nat.mul_pos hx hy
    nlinarith

/-- Witness for claim C10 (amended): a 2×3 base plane replicated `(2, 3)` —
the value argument has 216 entries, the coordinate argument 36. -/
theorem stmplot_double_tiling_length_mismatch_witness :
    (([[5, 5, 5], [5, 5, 5]] : List (List ℚ)).length = 2) ∧
    (∀ row ∈ ([[5, 5, 5], [5, 5, 5]] : List (List ℚ)), row.length = 3) ∧
    (1 < 2 * 3) ∧
    ((griddataArgLens ⟨2, 3, 1, (1, 0, 0), (0, 1, 0), (0, 0, 1)⟩
        [[5, 5, 5], [5, 5, 5]] (2, 3)).1 =
      2 * 3 * (griddataArgLens ⟨2, 3, 1, (1, 0, 0), (0, 1, 0), (0, 0, 1)⟩
        [[5, 5, 5], [5, 5, 5]] (2, 3)).2) ∧
    ((griddataArgLens ⟨2, 3, 1, (1, 0, 0), (0, 1, 0), (0, 0, 1)⟩
        [[5, 5, 5], [5, 5, 5]] (2, 3)).1 ≠
      (griddataArgLens ⟨2, 3, 1, (1, 0, 0), (0, 1, 0), (0, 0, 1)⟩
        [[5, 5, 5], [5, 5, 5]] (2, 3)).2) := by
  have h := stmplot_double_tiling_length_mismatch
    ⟨2, 3, 1, (1, 0, 0), (0, 1, 0), (0, 0, 1)⟩ [[5, 5, 5], [5, 5, 5]] (2, 3)
    rfl (by decide)
  exact ⟨rfl, by decide, by decide, h.1, h.2 (by decide) (by decide) (by decide)⟩

end StmPlot

namespace StmPlot

/-- A min-fold is bounded by its initial accumulator. -/
theorem foldl_min_le_init (l : List ℚ) : ∀ a : ℚ, l.foldl min a ≤ a := by
  induction l with
  | nil => intro a; exact le_refl a
  | cons x xs ih =>
    intro a
    exact le_trans (ih (min a x)) (min_le_left a x)

/-- A min-fold is bounded by every list element. -/
theorem foldl_min_le_of_mem (l : List ℚ) :
    ∀ (a x : ℚ), x ∈ l → l.foldl min a ≤ x := by
  induction l with
  | nil => intro a x hx; simp at hx
  | cons y ys ih =>
    intro a x hx
    rcases List.mem_cons.1 hx with h | h
    · subst h
      exact le_trans (foldl_min_le_init ys (min a x)) (min_le_right a x)
    · exact ih (min a y) x h

/-- A min-fold returns its accumulator or a list element. -/
theorem foldl_min_eq_or_mem (l : List ℚ) :
    ∀ a : ℚ, l.foldl min a = a ∨ l.foldl min a ∈ l := by
  induction l with
  | nil => intro a; exact Or.inl rfl
  | cons x xs ih =>
    intro a
    rcases ih (min a x) with h | h
    · rcases min_choice a x with hm | hm
      · exact Or.inl (by rw [List.foldl_cons, h, hm])
      · exact Or.inr (by rw [List.foldl_cons, h, hm]; exact List.mem_cons_self _ _)
    · exact Or.inr (List.mem_cons_of_mem _ h)

/-- `listMin` is a lower bound of the list. -/
theorem listMin_le (l : List ℚ) (x : ℚ) (hx : x ∈ l) : listMin l ≤ x := by
  cases l with
  | nil => simp at hx
  | cons y ys =>
    rcases List.mem_cons.1 hx with h | h
    · subst h; exact foldl_min_le_init ys x
    · exact foldl_min_le_of_mem ys y x h

/-- `listMin` of a nonempty list is attained. -/
theorem listMin_mem (l : List ℚ) (h : l ≠ []) : listMin l ∈ l := by
  cases l with
  | nil => exact absurd rfl h
  | cons y ys =>
    rcases foldl_min_eq_or_mem ys y with h1 | h1
    · rw [listMin, h1]; exact List.mem_cons_self _ _
    · exact List.mem_cons_of_mem _ (by rw [listMin]; exact h1)

/-- A max-fold dominates its initial accumulator. -/
theorem foldl_max_ge_init (l : List ℚ) : ∀ a : ℚ, a ≤ l.foldl max a := by
  induction l with
  | nil => intro a; exact le_refl a
  | cons x xs ih =>
    intro a
    exact le_trans (le_max_left a x) (ih (max a x))

/-- A max-fold dominates every list element. -/
theorem foldl_max_ge_of_mem (l : List ℚ) :
    ∀ (a x : ℚ), x ∈ l → x ≤ l.foldl max a := by
  induction l with
  | nil => intro a x hx; simp at hx
  | cons y ys ih =>
    intro a x hx
    rcases List.mem_cons.1 hx with h | h
    · subst h
      exact le_trans (le_max_right a x) (foldl_max_ge_init ys (max a x))
    · exact ih (max a y) x h

/-- A max-fold returns its accumulator or a list element. -/
theorem foldl_max_eq_or_mem (l : List ℚ) :
    ∀ a : ℚ, l.foldl max a = a ∨ l.foldl max a ∈ l := by
  induction l with
  | nil => intro a; exact Or.inl rfl
  | cons x xs ih =>
    intro a
    rcases ih (max a x) with h | h
    · rcases max_choice a x with hm | hm
      · exact Or.inl (by rw [List.foldl_cons, h, hm])
      · exact Or.inr (by rw [List.foldl_cons, h, hm]; exact List.mem_cons_self _ _)
    · exact Or.inr (List.mem_cons_of_mem _ h)

/-- `listMax` is an upper bound of the list. -/
theorem listMax_ge (l : List ℚ) (x : ℚ) (hx : x ∈ l) : x ≤ listMax l := by
  cases l with
  | nil => simp at hx
  | cons y ys =>
    rcases List.mem_cons.1 hx with h | h
    · subst h; exact foldl_max_ge_init ys x
    · exact foldl_max_ge_of_mem ys y x h

/-- `listMax` of a nonempty list is attained. -/
theorem listMax_mem (l : List ℚ) (h : l ≠ []) : listMax l ∈ l := by
  cases l with
  | nil => exact absurd rfl h
  | cons y ys =>
    rcases foldl_max_eq_or_mem ys y with h1 | h1
    · rw [listMax, h1]; exact List.mem_cons_self _ _
    · exact List.mem_cons_of_mem _ (by rw [listMax]; exact h1)

/-- `np.linspace(a, b, n)` has `n` samples. -/
theorem linspace_length (a b : ℚ) (n : ℕ) : (linspace a b n).length = n := by
  simp [linspace]

/-- The first `linspace` sample is the left endpoint. -/
theorem linspace_get?_zero (a b : ℚ) (n : ℕ) (h : 0 < n) :
    (linspace a b n).get? 0 = some a := by
  rw [linspace, List.get?_map, List.get?_range h]
  simp

/-- The last `linspace` sample is the right endpoint. -/
theorem linspace_get?_last (a b : ℚ) (n : ℕ) (h : 2 ≤ n) :
    (linspace a b n).get? (n - 1) = some b := by
  rw [linspace, List.get?_map, List.get?_range (by omega)]
  have hne : ((n : ℚ) - 1) ≠ 0 := by
    have : (2 : ℚ) ≤ (n : ℚ) := by exact_mod_cast h
    intro hz
    nlinarith
  have hcast : ((n - 1 : ℕ) : ℚ) = (n : ℚ) - 1 := by
    have : 1 ≤ n := by omega
    push_cast [this]
    ring
  simp only [Option.map_some']
  congr 1
  rw [hcast, mul_div_assoc, div_self hne]
  ring

/-- The last `linspace` sample, via `getLast?`. -/
theorem linspace_getLast? (a b : ℚ) (n : ℕ) (h : 2 ≤ n) :
    (linspace a b n).getLast? = some b := by
  rw [List.getLast?_eq_get?, linspace_length]
  exact linspace_get?_last a b n h

/-- The first row of a reversed array is the last row of the original. -/
theorem reverse_get?_zero (l : List (List ℚ)) (h : l ≠ []) :
    l.reverse.get? 0 = l.get? (l.length - 1) := by
  have hlen : 0 < l.length := List.length_pos.2 h
  rw [List.get?_reverse hlen]
  simp

end StmPlot

namespace StmPlot

/-- Claim C9. For every input plane, `resample` returns an
`nsamples × nsamples` array interpolated onto the uniform Cartesian mesh
spanning the bounding box of the scattered sample points (the mesh endpoints
are the coordinate minima and maxima), returns that bounding box as `extent`,
and — through the flip `resampled[::-1,:]` — row 0 of the returned array is
the interpolator's row at `ynew[nsamples-1]`, the maximum y coordinate.
`griddata` is the external interpolator, assumed only to return one row per
`ynew` entry with one column per `xnew` entry. -/
theorem stmplot_resample_contract
    (griddata : List ℚ → List ℚ → List ℚ → List ℚ → List ℚ → List (List ℚ))
    (plane : List (List ℚ)) (c : PlotCube) (rep : Option (ℕ × ℕ)) (nsamples : ℕ)
    (hg : ∀ xs ys vs xn yn, (griddata xs ys vs xn yn).length = yn.length ∧
      ∀ row ∈ griddata xs ys vs xn yn, row.length = xn.length)
    (hn : 2 ≤ nsamples) (hx : 0 < effNx c rep) (hy : 0 < effNy c rep) :
    ((resample griddata plane c rep nsamples).1.length = nsamples ∧
      ∀ row ∈ (resample griddata plane c rep nsamples).1, row.length = nsamples) ∧
    ((resample griddata plane c rep nsamples).2 =
      (listMin (scatterXs c rep), listMax (scatterXs c rep),
       listMin (scatterYs c rep), listMax (scatterYs c rep))) ∧
    (∀ p ∈ scatterPos c rep,
      listMin (scatterXs c rep) ≤ p.1 ∧ p.1 ≤ listMax (scatterXs c rep) ∧
      listMin (scatterYs c rep) ≤ p.2.1 ∧ p.2.1 ≤ listMax (scatterYs c rep)) ∧
    (listMin (scatterXs c rep) ∈ scatterXs c rep ∧
     listMax (scatterXs c rep) ∈ scatterXs c rep ∧
     listMin (scatterYs c rep) ∈ scatterYs c rep ∧
     listMax (scatterYs c rep) ∈ scatterYs c rep) ∧
    ((meshX c rep nsamples).get? 0 = some (listMin (scatterXs c rep)) ∧
     (meshX c rep nsamples).getLast? = some (listMax (scatterXs c rep)) ∧
     (meshY c rep nsamples).get? 0 = some (listMin (scatterYs c rep)) ∧
     (meshY c rep nsamples).getLast? = some (listMax (scatterYs c rep))) ∧
    ((resample griddata plane c rep nsamples).1.get? 0 =
      (griddata (scatterXs c rep) (scatterYs c rep) ((repTiled plane rep).flatten)
        (meshX c rep nsamples) (meshY c rep nsamples)).get? (nsamples - 1) ∧
     (meshY c rep nsamples).get? (nsamples - 1) =
       some (listMax (scatterYs c rep))) := by
  have hposlen : (scatterPos c rep).length = effNx c rep * effNy c rep := by
    rw [scatterPos, posList_length]
  have hpos_ne : scatterPos c rep ≠ [] := by
    intro hnil
    rw [hnil] at hposlen
    simp at hposlen
    omega
  have hxs_ne : scatterXs c rep ≠ [] := by
    rw [scatterXs]
    intro hnil
    exact hpos_ne (List.map_eq_nil.1 hnil)
  have hys_ne : scatterYs c rep ≠ [] := by
    rw [scatterYs]
    intro hnil
    exact hpos_ne (List.map_eq_nil.1 hnil)
  have hG := hg (scatterXs c rep) (scatterYs c rep) ((repTiled plane rep).flatten)
    (meshX c rep nsamples) (meshY c rep nsamples)
  have hGlen : (griddata (scatterXs c rep) (scatterYs c rep)
      ((repTiled plane rep).flatten) (meshX c rep nsamples)
      (meshY c rep nsamples)).length = nsamples := by
    rw [hG.1, meshY, linspace_length]
  refine ⟨⟨?_, ?_⟩, rfl, ?_, ?_, ⟨?_, ?_, ?_, ?_⟩, ⟨?_, ?_⟩⟩
  · show (List.reverse _).length = nsamples
    rw [List.length_reverse]
    exact hGlen
  · intro row hrow
    rw [show (resample griddata plane c rep nsamples).1 =
      (griddata (scatterXs c rep) (scatterYs c rep) ((repTiled plane rep).flatten)
        (meshX c rep nsamples) (meshY c rep nsamples)).reverse from rfl,
      List.mem_reverse] at hrow
    rw [hG.2 row hrow, meshX, linspace_length]
  · intro p hp
    refine ⟨listMin_le _ _ ?_, listMax_ge _ _ ?_, listMin_le _ _ ?_, listMax_ge _ _ ?_⟩
    · exact List.mem_map_of_mem (fun q => q.1) hp
    · exact List.mem_map_of_mem (fun q => q.1) hp
    · exact List.mem_map_of_mem (fun q => q.2.1) hp
    · exact List.mem_map_of_mem (fun q => q.2.1) hp
  · exact ⟨listMin_mem _ hxs_ne, listMax_mem _ hxs_ne,
      listMin_mem _ hys_ne, listMax_mem _ hys_ne⟩
  · exact linspace_get?_zero _ _ _ (by omega)
  · exact linspace_getLast? _ _ _ hn
  · exact linspace_get?_zero _ _ _ (by omega)
  · exact linspace_getLast? _ _ _ hn
  · show (List.reverse _).get? 0 = _
    rw [reverse_get?_zero _ (by
      intro hnil
      rw [hnil] at hGlen
      simp at hGlen
      omega), hGlen]
  · exact linspace_get?_last _ _ _ hn

end StmPlot

namespace StmPlot

/-- Witness for claim C9: a 1×1×1 unit cube, the plane `[[5]]`, two target
samples and the trivial interpolator. -/
theorem stmplot_resample_contract_witness :
    (∀ xs ys vs xn yn, (griddataZero xs ys vs xn yn).length = yn.length ∧
      ∀ row ∈ griddataZero xs ys vs xn yn, row.length = xn.length) ∧
    (2 ≤ 2) ∧
    (0 < effNx ⟨1, 1, 1, (1, 0, 0), (0, 1, 0), (0, 0, 1)⟩ none) ∧
    (0 < effNy ⟨1, 1, 1, (1, 0, 0), (0, 1, 0), (0, 0, 1)⟩ none) ∧
    (((resample griddataZero [[5]] ⟨1, 1, 1, (1, 0, 0), (0, 1, 0), (0, 0, 1)⟩ none 2).1.length = 2 ∧
      ∀ row ∈ (resample griddataZero [[5]] ⟨1, 1, 1, (1, 0, 0), (0, 1, 0), (0, 0, 1)⟩ none 2).1, row.length = 2) ∧
    ((resample griddataZero [[5]] ⟨1, 1, 1, (1, 0, 0), (0, 1, 0), (0, 0, 1)⟩ none 2).2 =
      (listMin (scatterXs ⟨1, 1, 1, (1, 0, 0), (0, 1, 0), (0, 0, 1)⟩ none), listMax (scatterXs ⟨1, 1, 1, (1, 0, 0), (0, 1, 0), (0, 0, 1)⟩ none),
       listMin (scatterYs ⟨1, 1, 1, (1, 0, 0), (0, 1, 0), (0, 0, 1)⟩ none), listMax (scatterYs ⟨1, 1, 1, (1, 0, 0), (0, 1, 0), (0, 0, 1)⟩ none))) ∧
    (∀ p ∈ scatterPos ⟨1, 1, 1, (1, 0, 0), (0, 1, 0), (0, 0, 1)⟩ none,
      listMin (scatterXs ⟨1, 1, 1, (1, 0, 0), (0, 1, 0), (0, 0, 1)⟩ none) ≤ p.1 ∧ p.1 ≤ listMax (scatterXs ⟨1, 1, 1, (1, 0, 0), (0, 1, 0), (0, 0, 1)⟩ none) ∧
      listMin (scatterYs ⟨1, 1, 1, (1, 0, 0), (0, 1, 0), (0, 0, 1)⟩ none) ≤ p.2.1 ∧ p.2.1 ≤ listMax (scatterYs ⟨1, 1, 1, (1, 0, 0), (0, 1, 0), (0, 0, 1)⟩ none)) ∧
    (listMin (scatterXs ⟨1, 1, 1, (1, 0, 0), (0, 1, 0), (0, 0, 1)⟩ none) ∈ (scatterXs ⟨1, 1, 1, (1, 0, 0), (0, 1, 0), (0, 0, 1)⟩ none) ∧
     listMax (scatterXs ⟨1, 1, 1, (1, 0, 0), (0, 1, 0), (0, 0, 1)⟩ none) ∈ (scatterXs ⟨1, 1, 1, (1, 0, 0), (0, 1, 0), (0, 0, 1)⟩ none) ∧
     listMin (scatterYs ⟨1, 1, 1, (1, 0, 0), (0, 1, 0), (0, 0, 1)⟩ none) ∈ (scatterYs ⟨1, 1, 1, (1, 0, 0), (0, 1, 0), (0, 0, 1)⟩ none) ∧
     listMax (scatterYs ⟨1, 1, 1, (1, 0, 0), (0, 1, 0), (0, 0, 1)⟩ none) ∈ (scatterYs ⟨1, 1, 1, (1, 0, 0), (0, 1, 0), (0, 0, 1)⟩ none)) ∧
    ((meshX ⟨1, 1, 1, (1, 0, 0), (0, 1, 0), (0, 0, 1)⟩ none 2).get? 0 = some (listMin (scatterXs ⟨1, 1, 1, (1, 0, 0), (0, 1, 0), (0, 0, 1)⟩ none)) ∧
     (meshX ⟨1, 1, 1, (1, 0, 0), (0, 1, 0), (0, 0, 1)⟩ none 2).getLast? = some (listMax (scatterXs ⟨1, 1, 1, (1, 0, 0), (0, 1, 0), (0, 0, 1)⟩ none)) ∧
     (meshY ⟨1, 1, 1, (1, 0, 0), (0, 1, 0), (0, 0, 1)⟩ none 2).get? 0 = some (listMin (scatterYs ⟨1, 1, 1, (1, 0, 0), (0, 1, 0), (0, 0, 1)⟩ none)) ∧
     (meshY ⟨1, 1, 1, (1, 0, 0), (0, 1, 0), (0, 0, 1)⟩ none 2).getLast? = some (listMax (scatterYs ⟨1, 1, 1, (1, 0, 0), (0, 1, 0), (0, 0, 1)⟩ none))) ∧
    ((resample griddataZero [[5]] ⟨1, 1, 1, (1, 0, 0), (0, 1, 0), (0, 0, 1)⟩ none 2).1.get? 0 =
      (griddataZero (scatterXs ⟨1, 1, 1, (1, 0, 0), (0, 1, 0), (0, 0, 1)⟩ none) (scatterYs ⟨1, 1, 1, (1, 0, 0), (0, 1, 0), (0, 0, 1)⟩ none) ((repTiled [[5]] none).flatten) (meshX ⟨1, 1, 1, (1, 0, 0), (0, 1, 0), (0, 0, 1)⟩ none 2) (meshY ⟨1, 1, 1, (1, 0, 0), (0, 1, 0), (0, 0, 1)⟩ none 2)).get? (2 - 1) ∧
     (meshY ⟨1, 1, 1, (1, 0, 0), (0, 1, 0), (0, 0, 1)⟩ none 2).get? (2 - 1) =
       some (listMax (scatterYs ⟨1, 1, 1, (1, 0, 0), (0, 1, 0), (0, 0, 1)⟩ none)))) := by
  have hg : ∀ xs ys vs xn yn, (griddataZero xs ys vs xn yn).length = yn.length ∧
      ∀ row ∈ griddataZero xs ys vs xn yn, row.length = xn.length := by
    intro xs ys vs xn yn
    constructor
    · simp [griddataZero]
    · intro row hrow
      simp only [griddataZero, List.mem_map] at hrow
      obtain ⟨y0, -, hrow⟩ := hrow
      rw [← hrow]
      simp
  exact ⟨hg, by decide, by decide, by decide,
    stmplot_resample_contract griddataZero [[5]] ⟨1, 1, 1, (1, 0, 0), (0, 1, 0), (0, 0, 1)⟩ none 2 hg
      (by decide) (by decide) (by decide)⟩

end StmPlot
